import Mathlib

/-!
Verification of the house-maintenance reminder program (`src/Code.js`).

The file shallowly embeds the program's data model and operations in Lean:

* spreadsheet cell values become the inductive type `Cell`, with JavaScript
  truthiness (`Cell.truthy`), JavaScript `String()` coercion (`Cell.jsString`)
  and `new Date(value)` coercion to epoch milliseconds (`Cell.jsDateMs`);
* the configuration objects `USER_CONFIG` / `DEFAULT_CONFIG` and their merge in
  `loadConfig` become `UserConfig`, `DEFAULT_CONFIG`, `mergeConfig`, `loadConfig`;
* date arithmetic (`getDaysBetween`), the `MaintenanceItem` class, the e-mail
  composer (`buildMailBody`, `sendEmail`), the column resolver (`findColumn`),
  the log scan loop of `readMaintenanceLog` (`scanGo`) and the trigger set-up
  (`deleteTriggers`, `setupSchedule`) are translated function by function.

JavaScript integers (epoch milliseconds, day counts, thresholds) are modelled
as `Int`; all values involved are far below 2^53, where double arithmetic is
exact, so no overflow modelling is needed.  Fallible operations are modelled
with `Option` / `Except`.  External collaborators (spreadsheet, mail transport,
trigger store, clock) are passed in as explicit arguments or state.
-/

/-! ## Cell values and JavaScript coercions -/

/-- A spreadsheet cell value as seen by the script: a string, a number, a
boolean, a `Date` (identified with its epoch-millisecond timestamp), or
JavaScript `undefined` (out-of-range or missing access). -/
inductive Cell where
  | str (s : String)
  | num (n : Int)
  | boolean (b : Bool)
  | date (ms : Int)
  | undef
deriving DecidableEq

/-- JavaScript truthiness of a cell value: `""`, `0`, `false` and `undefined`
are falsy; every other string/number/boolean and every `Date` object is
truthy. -/
def Cell.truthy : Cell → Bool
  | .str s => !(s == "")
  | .num n => !(n == 0)
  | .boolean b => b
  | .date _ => true
  | .undef => false

/-- JavaScript `String()` coercion of a cell value, as applied implicitly by
`regex.test(item)` and by template literals.  The exact text JavaScript
produces for a `Date` object is locale/engine formatted and is not modelled;
no theorem below depends on the `date` branch's string. -/
def Cell.jsString : Cell → String
  | .str s => s
  | .num n => toString n
  | .boolean b => if b then "true" else "false"
  | .date ms => "[Date " ++ toString ms ++ "]"
  | .undef => "undefined"

/-- JavaScript `new Date(value)` coercion to epoch milliseconds, as used by
`daysTilDue` on the due-date cell.  `none` models an invalid date (`NaN`
timestamp).  Date-string parsing is not modelled: a string cell is mapped to
an invalid date (as real unparseable strings are); no theorem below feeds a
string cell to this coercion. -/
def Cell.jsDateMs : Cell → Option Int
  | .date ms => some ms
  | .num n => some n
  | .boolean b => some (if b then 1 else 0)
  | .str _ => none
  | .undef => none

/-! ## Configuration (`USER_CONFIG`, `DEFAULT_CONFIG`, `loadConfig`) -/

/-- The `dueLabels` template block of the configuration. -/
structure DueLabels where
  today : String
  future : String
  past : String
deriving DecidableEq

/-- The `statusLabels` block of the configuration. -/
structure StatusLabels where
  due : String
  overdue : String
deriving DecidableEq

/-- The `columns` block of the configuration: header names to look for. -/
structure ColumnHints where
  maintenance : String
  due : String
  frequency : String
  archived : String
deriving DecidableEq

/-- The merged configuration object.  `email` is an `Option String`: `none`
models an absent key / `undefined` value. -/
structure Config where
  email : Option String
  sheetName : String
  sheetRange : String
  triggerDays : List String
  triggerHours : List Int
  daysDueThreshold : Int
  daysOverdueThreshold : Int
  emailSubject : String
  emailFooter : String
  emailBodyHeader : String
  dueLabels : DueLabels
  statusLabels : StatusLabels
  columns : ColumnHints
deriving DecidableEq

/-- The user-editable configuration block; in the source it holds only the
recipient e-mail address.  `none` models the key being absent. -/
structure UserConfig where
  email : Option String
deriving DecidableEq

/-- The shipped `USER_CONFIG` literal, with the placeholder address. -/
def USER_CONFIG : UserConfig := ⟨some "youremail@gmail.com"⟩

/-- The `DEFAULT_CONFIG` literal from the source.  It carries no `email` key,
modelled as `none`. -/
def DEFAULT_CONFIG : Config := {
  email := none
  sheetName := "house_log"
  sheetRange := "A1:L100"
  triggerDays := ["SATURDAY"]
  triggerHours := [7]
  daysDueThreshold := 7
  daysOverdueThreshold := 14
  emailSubject := "🏠House maintenance due: {count} item(s)"
  emailFooter := "\nSee instructions and update Last Done date when complete in {url}.\n\n Thanks for the house love. 🔧❤️🔧"
  emailBodyHeader := "⚠️The following maintenance is {status}:"
  dueLabels := ⟨"due today", "due in {days} days", "due {days} days ago"⟩
  statusLabels := ⟨"DUE", "OVERDUE"⟩
  columns := ⟨"Maintenance", "Next due", "Frequency", "Archived"⟩
}

/-- JavaScript falsiness of an optional string value (`undefined` or `""`). -/
def strFalsy : Option String → Bool
  | none => true
  | some s => s == ""

/-- The spread merge `{...DEFAULT_CONFIG, ...USER_CONFIG}`: the user block
overrides the `email` field. -/
def mergeConfig (u : UserConfig) : Config := { DEFAULT_CONFIG with email := u.email }

/-- Source `isFakeEmail()`: the user e-mail strictly equals the shipped
placeholder string. -/
def isFakeEmail (u : UserConfig) : Bool := u.email == some "youremail@gmail.com"

/-- Source `loadConfig()`.  On a falsy or placeholder recipient the source
calls `sendEmailError(msg, true)`, which throws after a best-effort
notification; the abnormal termination is modelled as an `Except.error`
carrying the source's message.  The source also caches the merged object in a
global `CONFIG`; the cache is invisible to a single call and is not
modelled. -/
def loadConfig (u : UserConfig) : Except String Config :=
  let cfg := mergeConfig u
  if strFalsy cfg.email || isFakeEmail u then
    .error "Email must be set in USER_CONFIG before running. (Replace sample email.)"
  else
    .ok cfg

/-! ## Error reporting (`sendEmailError`) -/

/-- An outgoing e-mail as handed to the mail transport.  `emailTo` is optional
because the source passes `CONFIG.email` through unchecked. -/
structure Email where
  emailTo : Option String
  subject : String
  body : String
deriving DecidableEq

/-- JavaScript `a || b` on two optional strings: the left operand unless it is
falsy. -/
def jsOrStr (a b : Option String) : Option String := if strFalsy a then b else a

/-- Outcome of `sendEmailError`: the notification mail it handed to the
transport, if any, and whether it then threw (re-raised the error). -/
structure ErrorReport where
  mailed : Option Email
  thrown : Bool
deriving DecidableEq

/-- Source `sendEmailError(error, dieOnError)`.  `cfgEmail` is `CONFIG?.email`
and `userEmail` is `USER_CONFIG.email`; `scriptId` stands for the external
`ScriptApp.getScriptId()`. -/
def sendEmailError (cfgEmail userEmail : Option String) (scriptId : String)
    (error : String) (dieOnError : Bool) : ErrorReport :=
  let emailTo := jsOrStr cfgEmail userEmail
  if strFalsy emailTo then
    ⟨none, dieOnError⟩
  else
    let subject := "ERROR in Google script"
    let link := "https://script.google.com/home/projects/" ++ scriptId ++ "/executions"
    let body := "Google script failed with error:\n" ++ error ++ "\n\n" ++ link
    ⟨some ⟨emailTo, subject, body⟩, dieOnError⟩

/-! ## Date arithmetic -/

def MS_PER_SECOND : Int := 1000
def MS_PER_MINUTE : Int := MS_PER_SECOND * 60
def MS_PER_HOUR : Int := MS_PER_MINUTE * 60
def MS_PER_DAY : Int := MS_PER_HOUR * 24

/-- Source `getDaysBetween(earlierDate, laterDate)`.  The source computes
`Math.trunc(Math.round(later - earlier) / MS_PER_DAY)`: the timestamps are
integers, so `Math.round` of their difference is the identity, and
`Math.trunc` of the real quotient is truncation toward zero, i.e.
`Int.tdiv`. -/
def getDaysBetween (earlierMs laterMs : Int) : Int :=
  Int.tdiv (laterMs - earlierMs) MS_PER_DAY

/-! ## MaintenanceItem -/

/-- Source class `MaintenanceItem`: the task description cell, the due-date
cell, and the construction-time date truncated to midnight (epoch
milliseconds). -/
structure MaintenanceItem where
  desc : Cell
  dueDate : Cell
  today : Int
deriving DecidableEq

/-- Source `daysTilDue()`: `getDaysBetween(this.today, new Date(this.dueDate))`.
`none` models the `NaN` day count produced by an invalid due date; every
comparison against `NaN` is false in JavaScript, which the callers below
reproduce. -/
def MaintenanceItem.daysTilDue (item : MaintenanceItem) : Option Int :=
  item.dueDate.jsDateMs.map (fun ms => getDaysBetween item.today ms)

/-- Source `isDue()`: `daysTilDue() <= CONFIG.daysDueThreshold`. -/
def MaintenanceItem.isDue (cfg : Config) (item : MaintenanceItem) : Bool :=
  match item.daysTilDue with
  | some d => decide (d ≤ cfg.daysDueThreshold)
  | none => false

/-- Source `isOverdue()`: `daysTilDue() <= -1*CONFIG.daysOverdueThreshold`. -/
def MaintenanceItem.isOverdue (cfg : Config) (item : MaintenanceItem) : Bool :=
  match item.daysTilDue with
  | some d => decide (d ≤ -1 * cfg.daysOverdueThreshold)
  | none => false

/-! ## String templating -/

/-- Exact prefix test on character lists (auxiliary for `replaceFirstAux` and
for the case-insensitive substring predicate used in the `findColumn`
claims). -/
def startsChars : List Char → List Char → Bool
  | [], _ => true
  | _ :: _, [] => false
  | a :: p, c :: s => a == c && startsChars p s

/-- Replace the leftmost occurrence of `pat` (auxiliary for `replaceFirst`). -/
def replaceFirstAux (pat repl : List Char) : List Char → List Char
  | [] => []
  | c :: cs =>
    if startsChars pat (c :: cs) then repl ++ (c :: cs).drop pat.length
    else c :: replaceFirstAux pat repl cs

/-- JavaScript `s.replace(pat, repl)` with a string pattern: only the first
occurrence is replaced.  The source only ever passes the non-empty literal
tokens `"{count}"`, `"{url}"`, `"{status}"`, `"{days}"` as `pat`. -/
def replaceFirst (s pat repl : String) : String :=
  String.mk (replaceFirstAux pat.toList repl.toList s.toList)

/-- Source `dueLabel()`.  A `NaN` day count (invalid due date) fails both the
`=== 0` and `>= 1` tests and lands in the past branch, where
`Math.abs(NaN).toString()` is `"NaN"`. -/
def MaintenanceItem.dueLabel (cfg : Config) (item : MaintenanceItem) : String :=
  match item.daysTilDue with
  | none => replaceFirst cfg.dueLabels.past "{days}" "NaN"
  | some dueDays =>
    if dueDays = 0 then cfg.dueLabels.today
    else if 1 ≤ dueDays then replaceFirst cfg.dueLabels.future "{days}" (toString dueDays)
    else replaceFirst cfg.dueLabels.past "{days}" (toString dueDays.natAbs)

/-! ## Notification composer (`buildMailBody`, `sendEmail`) -/

/-- Source `buildMailBody(items, overdue)`. -/
def buildMailBody (cfg : Config) (items : List MaintenanceItem) (overdue : Bool) : String :=
  if items.length = 0 then ""
  else
    let status := if overdue then cfg.statusLabels.overdue else cfg.statusLabels.due
    let header := replaceFirst cfg.emailBodyHeader "{status}" status
    let itemList := String.intercalate "\n"
      (items.map (fun obj => "- " ++ obj.desc.jsString ++ " - " ++ obj.dueLabel cfg))
    header ++ "\n\n" ++ itemList ++ "\n\n-----\n"

/-- Source `sendEmail(dueItems, overdueItems)`.  `spreadsheetUrl` stands for
the external `SpreadsheetApp.getActiveSpreadsheet().getUrl()`.  Returns the
mail handed to `MailApp.sendEmail`, or `none` when the early return for zero
items fires and the transport is never invoked. -/
def sendEmail (cfg : Config) (spreadsheetUrl : String)
    (dueItems overdueItems : List MaintenanceItem) : Option Email :=
  let emailTo := cfg.email
  let numItems := dueItems.length + overdueItems.length
  if numItems = 0 then none
  else
    let subject := replaceFirst cfg.emailSubject "{count}" (toString numItems)
    let body1 := buildMailBody cfg dueItems false
    let body2 := buildMailBody cfg overdueItems true
    let buffer := if body1 ≠ "" ∧ body2 ≠ "" then "\n" else ""
    let footer := replaceFirst cfg.emailFooter "{url}" spreadsheetUrl
    let body := body1 ++ buffer ++ body2 ++ footer
    some ⟨emailTo, subject, body⟩

/-! ## Column resolver (`findColumn`)

The source builds `new RegExp(label, 'i')` and tests it against each header
cell, so the label is interpreted as a regular-expression pattern, not as a
literal string.  The embedding models the pattern language actually relevant
here: literal characters plus the `.` metacharacter (which matches any
character except a line terminator).  Other regex metacharacters are not
modelled, and no theorem below instantiates a label containing one. -/

/-- One compiled regex token. -/
inductive RTok where
  | lit (c : Char)
  | dot
deriving DecidableEq

/-- Compile a label string into regex tokens: `.` becomes the any-character
metacharacter, every other character a literal. -/
def compilePattern (label : String) : List RTok :=
  label.toList.map (fun c => if c = '.' then RTok.dot else RTok.lit c)

/-- Match of one token against one character.  The `'i'` flag makes literal
comparison case-insensitive; `.` matches anything but the four JavaScript
line terminators. -/
def matchTok (t : RTok) (c : Char) : Bool :=
  match t with
  | .lit a => a.toLower == c.toLower
  | .dot => !(c == '\n' || c == '\r' || c == Char.ofNat 0x2028 || c == Char.ofNat 0x2029)

/-- Whether the token list matches at the very start of the text. -/
def matchesAt : List RTok → List Char → Bool
  | [], _ => true
  | _ :: _, [] => false
  | t :: ts, c :: cs => matchTok t c && matchesAt ts cs

/-- Whether the token list matches anywhere in the text (unanchored search, as
performed by `RegExp.prototype.test`). -/
def regexSearch (pat : List RTok) : List Char → Bool
  | [] => matchesAt pat []
  | c :: cs => matchesAt pat (c :: cs) || regexSearch pat cs

/-- The test `new RegExp(label, 'i').test(s)`. -/
def regexTest (label : String) (s : String) : Bool :=
  regexSearch (compilePattern label) s.toList

/-- Source `findColumn(rowData, label)`: index of the first header cell whose
`String()` coercion the pattern matches; the source maps `findIndex`'s `-1` to
`null` (here `none`) after logging. -/
def findColumn (rowData : List Cell) (label : String) : Option Nat :=
  rowData.findIdx? (fun item => regexTest label item.jsString)

/-! ## Log scanner (`readMaintenanceLog`) -/

/-- A data row: the ordered cell values of one sheet line. -/
abbrev Row := List Cell

/-- JavaScript indexing `row[i]` where `i` may be `null` (an unresolved
column): both `row[null]` and an out-of-range index yield `undefined`. -/
def getCell (row : Row) (i : Option Nat) : Cell :=
  match i with
  | none => Cell.undef
  | some j => row.getD j Cell.undef

/-- The mutable state of the scan loop in `readMaintenanceLog`: the two result
buckets and the empty-row counter `nEmpty`. -/
structure ScanState where
  overdueItems : List MaintenanceItem
  dueItems : List MaintenanceItem
  nEmpty : Nat
deriving DecidableEq

/-- The row-emptiness condition `!desc || !due` of the scan loop, as a
predicate on a row given the two resolved column indices. -/
def rowEmptyAt (iItem iDueDate : Nat) (row : Row) : Bool :=
  !(getCell row (some iItem)).truthy || !(getCell row (some iDueDate)).truthy

/-- The `for (const row of sheetData)` loop of `readMaintenanceLog`.  The
first component of the result is the final `ScanState`; the second is a ghost
output for specification purposes only: the list of rows the loop body
actually examined (i.e. reached past the `nEmpty === 4` break). -/
def scanGo (cfg : Config) (iItem iDueDate : Nat) (iArchived : Option Nat)
    (todayMs : Int) : List Row → ScanState → ScanState × List Row
  | [], s => (s, [])
  | row :: rest, s =>
    if s.nEmpty = 4 then (s, [])
    else
      let desc := getCell row (some iItem)
      let due := getCell row (some iDueDate)
      let archived := getCell row iArchived
      let s' :=
        if rowEmptyAt iItem iDueDate row then { s with nEmpty := s.nEmpty + 1 }
        else if archived.truthy then s
        else
          let item : MaintenanceItem := ⟨desc, due, todayMs⟩
          if item.isOverdue cfg then { s with overdueItems := s.overdueItems ++ [item] }
          else if item.isDue cfg then { s with dueItems := s.dueItems ++ [item] }
          else s
      let r := scanGo cfg iItem iDueDate iArchived todayMs rest s'
      (r.1, row :: r.2)

/-- The tail of `readMaintenanceLog` after the loop: call `sendEmail` iff one
of the buckets is non-empty.  The Boolean records whether `sendEmail` was
invoked at all (ghost observation for the claims); the `Option Email` is what
reached the transport. -/
def mailDecision (cfg : Config) (spreadsheetUrl : String) (s : ScanState) :
    Bool × Option Email :=
  if 0 < s.overdueItems.length ∨ 0 < s.dueItems.length then
    (true, sendEmail cfg spreadsheetUrl s.dueItems s.overdueItems)
  else
    (false, none)

/-- Source `readMaintenanceLog()`, given the externally fetched sheet data
split into header row and data rows.  Column resolution failure for the task
or due-date column routes through `sendEmailError` (fatal), modelled as an
`Except.error`; otherwise the scan runs from the empty initial state and the
mail decision is taken. -/
def readMaintenanceLog (cfg : Config) (spreadsheetUrl : String) (todayMs : Int)
    (headerRow : Row) (rows : List Row) :
    Except String (ScanState × Bool × Option Email) :=
  let iItem := findColumn headerRow cfg.columns.maintenance
  let iDueDate := findColumn headerRow cfg.columns.due
  let iArchived := findColumn headerRow cfg.columns.archived
  match iItem, iDueDate with
  | some i, some j =>
    let r := scanGo cfg i j iArchived todayMs rows ⟨[], [], 0⟩
    .ok (r.1, mailDecision cfg spreadsheetUrl r.1)
  | _, _ =>
    .error ("Required columns not found in " ++ cfg.sheetName ++
      " sheet in first row of range " ++ cfg.sheetRange)

/-! ## Schedule manager (`deleteTriggers`, `setupSchedule`) -/

/-- A recurring trigger registration in the host's trigger store. -/
structure Trigger where
  handlerFunction : String
  weekDay : String
  hour : Int
deriving DecidableEq

/-- Source `deleteTriggers(triggerFunctionName)`: remove from the store every
trigger whose handler function is the given name, leaving the rest. -/
def deleteTriggers (triggerFunctionName : String) (triggers : List Trigger) :
    List Trigger :=
  triggers.filter (fun t => !(t.handlerFunction == triggerFunctionName))

/-- Source `setupSchedule()`, acting on the trigger store: first
`deleteTriggers('main')`, then one `ScriptApp.newTrigger('main')` registration
per (day, hour) pair of the configured cross product, in loop order. -/
def setupSchedule (days : List String) (hours : List Int)
    (triggers : List Trigger) : List Trigger :=
  deleteTriggers "main" triggers ++
    days.flatMap (fun day => hours.map (fun hour => ⟨"main", day, hour⟩))

/-! ## Specification-side definitions

The following definitions are not translations of the source; they state, in
the claims' own vocabulary, properties the theorems below compare the source
against. -/

/-- Case-insensitive occurrence search of `p` in the text (auxiliary). -/
def hasSubChars (p : List Char) : List Char → Bool
  | [] => startsChars p []
  | c :: cs => startsChars p (c :: cs) || hasSubChars p cs

/-- The claim's matching notion for `findColumn`: `needle` occurs in `hay` as
a literal substring, compared case-insensitively. -/
def containsCI (hay needle : String) : Bool :=
  hasSubChars (needle.toList.map Char.toLower) (hay.toList.map Char.toLower)

/-- The fifteen characters that are metacharacters of the JavaScript regular
expression language (in some position), hence can make `new RegExp(label)`
deviate from literal-substring matching. -/
def regexMetaChars : List Char :=
  ['.', '*', '+', '?', '^', '$', '(', ')', '[', ']', '\x7b', '\x7d', '|', '\\', '/']

/-- A label free of regex metacharacters, i.e. one that `new RegExp` treats as
a literal character sequence. -/
def noRegexMeta (label : String) : Bool :=
  label.toList.all (fun c => !(regexMetaChars.contains c))

/-- The coercion-explicit form of `findColumn`, operating on the `String()`
images of the header cells (spec side, for the claim that non-string cells are
matched through their string coercion). -/
def findColumnOnStrings (strs : List String) (label : String) : Option Nat :=
  strs.findIdx? (fun s => regexTest label s)

/-- Spec-side description of which rows the scan visits: a row is visited iff
the running count of empty rows seen so far (cumulative, never reset) has not
reached 4 when the row comes up. -/
def scannedRowsSpec (iItem iDueDate : Nat) (nEmpty : Nat) : List Row → List Row
  | [] => []
  | row :: rest =>
    if nEmpty = 4 then []
    else row :: scannedRowsSpec iItem iDueDate
      (if rowEmptyAt iItem iDueDate row then nEmpty + 1 else nEmpty) rest

/-- Whether the row sequence contains four consecutive empty rows (the
stopping condition the claim attributes to the scan). -/
def hasFourConsecutiveEmpty (iItem iDueDate : Nat) : List Row → Bool
  | r1 :: r2 :: r3 :: r4 :: rest =>
    (rowEmptyAt iItem iDueDate r1 && rowEmptyAt iItem iDueDate r2 &&
      rowEmptyAt iItem iDueDate r3 && rowEmptyAt iItem iDueDate r4) ||
    hasFourConsecutiveEmpty iItem iDueDate (r2 :: r3 :: r4 :: rest)
  | _ => false

/-- A concrete configuration with a customized recipient, used by the witness
and counterexample theorems. -/
def testConfig : Config := { DEFAULT_CONFIG with email := some "me@example.com" }

/-- A concrete empty row (blank task and due-date cells). -/
def emptyTestRow : Row := [Cell.str "", Cell.str "", Cell.str ""]

/-- A concrete populated, non-archived row due at epoch midnight. -/
def fullTestRow : Row := [Cell.str "task", Cell.date 0, Cell.boolean false]

/-- Eight rows alternating empty and populated: four empty rows occur, but
never two in a row. -/
def c1Rows : List Row :=
  [emptyTestRow, fullTestRow, emptyTestRow, fullTestRow,
   emptyTestRow, fullTestRow, emptyTestRow, fullTestRow]

/-! ## Theorems -/

/-- C10: `getDaysBetween` is antisymmetric: swapping the two dates negates the
result exactly, because the millisecond difference is negated exactly and
truncation toward zero is an odd function. -/
theorem c10_getDaysBetween_antisymm (a b : Int) :
    getDaysBetween a b = -getDaysBetween b a := by
  unfold getDaysBetween
  rw [show b - a = -(a - b) by ring, Int.neg_tdiv]

/-- C2: for valid (dueDate, today) pairs — both calendar dates normalized to
midnight, i.e. whole-day timestamps — `daysTilDue()` is negative iff the due
date is strictly earlier than today, zero iff they are equal, and positive iff
it is strictly later. -/
theorem c2_daysTilDue_sign (desc : Cell) (todayMs dueMs : Int)
    (hT : MS_PER_DAY ∣ todayMs) (hD : MS_PER_DAY ∣ dueMs) :
    MaintenanceItem.daysTilDue ⟨desc, Cell.date dueMs, todayMs⟩ =
      some (getDaysBetween todayMs dueMs) ∧
    (getDaysBetween todayMs dueMs < 0 ↔ dueMs < todayMs) ∧
    (getDaysBetween todayMs dueMs = 0 ↔ dueMs = todayMs) ∧
    (0 < getDaysBetween todayMs dueMs ↔ todayMs < dueMs) := by
  obtain ⟨k1, hk1⟩ := hT
  obtain ⟨k2, hk2⟩ := hD
  subst hk1
  subst hk2
  have hne : MS_PER_DAY ≠ 0 := by decide
  have h86 : MS_PER_DAY = (86400000 : Int) := by decide
  have key : getDaysBetween (MS_PER_DAY * k1) (MS_PER_DAY * k2) = k2 - k1 := by
    unfold getDaysBetween
    rw [← mul_sub]
    exact Int.mul_tdiv_cancel_left _ hne
  refine ⟨rfl, ?_, ?_, ?_⟩ <;> rw [key, h86] <;> omega

/-- Witness for C2 at a concrete pair of midnight timestamps (epoch midnight
and one day later). -/
theorem c2_witness :
    MS_PER_DAY ∣ (0 : Int) ∧ MS_PER_DAY ∣ (86400000 : Int) ∧
    (MaintenanceItem.daysTilDue ⟨Cell.str "t", Cell.date 86400000, 0⟩ =
        some (getDaysBetween 0 86400000) ∧
      (getDaysBetween 0 86400000 < 0 ↔ (86400000 : Int) < 0) ∧
      (getDaysBetween 0 86400000 = 0 ↔ (86400000 : Int) = 0) ∧
      (0 < getDaysBetween 0 86400000 ↔ (0 : Int) < 86400000)) :=
  ⟨by decide, by decide,
    c2_daysTilDue_sign (Cell.str "t") 0 86400000 (by decide) (by decide)⟩

/-- C4 (corrected by `c4_counterexample`): `findColumn` is a total function
and every header cell — string or not — is matched through its JavaScript
`String()` coercion, so a non-string cell whose string form matches the label
can be the returned match. -/
theorem c4_findColumn_string_coercion (rowData : List Cell) (label : String) :
    findColumn rowData label = findColumnOnStrings (rowData.map Cell.jsString) label := by
  unfold findColumn findColumnOnStrings
  rw [List.findIdx?_map]
  rfl

/-- Counterexample for C4 as stated: a numeric cell and a boolean cell are
matched (and returned) even though they are not strings, contradicting
"every non-string header cell is treated as not matching". -/
theorem c4_counterexample :
    findColumn [Cell.num 123] "12" = some 0 ∧
    findColumn [Cell.boolean true] "TRU" = some 0 := by decide

/-- C8: configuration loading fails fatally exactly when the recipient e-mail
is absent (missing key or empty string) or still equals the shipped
placeholder; otherwise it returns the merged configuration.  The third
conjunct records that the fatal reporting path (`sendEmailError` with
`dieOnError = true`) always re-raises, so the run terminates abnormally after
the report attempt. -/
theorem c8_config_email_validation (u : UserConfig) :
    ((u.email = none ∨ u.email = some "" ∨ u.email = some "youremail@gmail.com") →
      loadConfig u =
        .error "Email must be set in USER_CONFIG before running. (Replace sample email.)") ∧
    ((u.email ≠ none ∧ u.email ≠ some "" ∧ u.email ≠ some "youremail@gmail.com") →
      loadConfig u = .ok (mergeConfig u)) ∧
    (∀ (cfgEmail userEmail : Option String) (scriptId err : String),
      (sendEmailError cfgEmail userEmail scriptId err true).thrown = true) := by
  refine ⟨?_, ?_, ?_⟩
  · rintro (h | h | h) <;>
      simp [loadConfig, mergeConfig, strFalsy, isFakeEmail, h]
  · rintro ⟨h1, h2, h3⟩
    cases he : u.email with
    | none => exact absurd he h1
    | some s =>
      have hs1 : ¬(s = "") := fun h => h2 (by rw [he, h])
      have hs2 : ¬(s = "youremail@gmail.com") := fun h => h3 (by rw [he, h])
      simp [loadConfig, mergeConfig, strFalsy, isFakeEmail, he, hs1, hs2]
  · intro cfgEmail userEmail scriptId err
    by_cases h : strFalsy (jsOrStr cfgEmail userEmail) <;> simp [sendEmailError, h]

/-- Witness for C8: a customized recipient loads, the shipped placeholder is
fatal, and the fatal report path re-raises. -/
theorem c8_witness :
    loadConfig ⟨some "me@example.com"⟩ = .ok (mergeConfig ⟨some "me@example.com"⟩) ∧
    loadConfig ⟨some "youremail@gmail.com"⟩ =
      .error "Email must be set in USER_CONFIG before running. (Replace sample email.)" ∧
    (sendEmailError none (some "me@example.com") "SID" "boom" true).thrown = true :=
  ⟨(c8_config_email_validation ⟨some "me@example.com"⟩).2.1 (by decide),
   (c8_config_email_validation ⟨some "youremail@gmail.com"⟩).1 (Or.inr (Or.inr rfl)),
   (c8_config_email_validation ⟨some "x"⟩).2.2 none (some "me@example.com") "SID" "boom"⟩

/-- C6: with both item lists empty, `sendEmail` returns without handing
anything to the transport; and the scan's mail decision invokes `sendEmail`
only when at least one of the two buckets is non-empty (with both empty it
signals "nothing to send" and never calls it). -/
theorem c6_no_items_no_mail :
    (∀ (cfg : Config) (url : String), sendEmail cfg url [] [] = none) ∧
    (∀ (cfg : Config) (url : String) (s : ScanState),
      (mailDecision cfg url s).1 = true →
        0 < s.overdueItems.length ∨ 0 < s.dueItems.length) ∧
    (∀ (cfg : Config) (url : String) (s : ScanState),
      s.dueItems = [] → s.overdueItems = [] → mailDecision cfg url s = (false, none)) := by
  refine ⟨?_, ?_, ?_⟩
  · intro cfg url; rfl
  · intro cfg url s h
    by_cases hc : 0 < s.overdueItems.length ∨ 0 < s.dueItems.length
    · exact hc
    · rw [mailDecision, if_neg hc] at h
      cases h
  · intro cfg url s h1 h2
    rw [mailDecision, h1, h2]
    simp

/-- Witness for C6: an overdue singleton does trigger the send path, and the
empty scan state yields "nothing to send" with `sendEmail` never invoked. -/
theorem c6_witness :
    sendEmail testConfig "http://sheet" [] [] = none ∧
    (0 < (ScanState.mk [⟨Cell.str "task", Cell.date (-1728000000), 0⟩] [] 0).overdueItems.length ∨
      0 < (ScanState.mk [⟨Cell.str "task", Cell.date (-1728000000), 0⟩] [] 0).dueItems.length) ∧
    mailDecision testConfig "http://sheet" ⟨[], [], 0⟩ = (false, none) :=
  ⟨c6_no_items_no_mail.1 testConfig "http://sheet",
   c6_no_items_no_mail.2.1 testConfig "http://sheet"
     ⟨[⟨Cell.str "task", Cell.date (-1728000000), 0⟩], [], 0⟩ (by decide),
   c6_no_items_no_mail.2.2 testConfig "http://sheet" ⟨[], [], 0⟩ rfl rfl⟩

/-- C7: a non-empty row whose archived cell is truthy is skipped: the loop
continues with the scan state (both buckets and the empty-row counter)
exactly as it was, and only the ghost visited-rows output records the row. -/
theorem c7_archived_row_skipped (cfg : Config) (iItem iDueDate : Nat)
    (iArchived : Option Nat) (todayMs : Int) (row : Row) (rest : List Row)
    (s : ScanState) (hn : s.nEmpty ≠ 4)
    (hdesc : (getCell row (some iItem)).truthy = true)
    (hdue : (getCell row (some iDueDate)).truthy = true)
    (harch : (getCell row iArchived).truthy = true) :
    scanGo cfg iItem iDueDate iArchived todayMs (row :: rest) s =
      ((scanGo cfg iItem iDueDate iArchived todayMs rest s).1,
        row :: (scanGo cfg iItem iDueDate iArchived todayMs rest s).2) := by
  have hemp : rowEmptyAt iItem iDueDate row = false := by
    rw [rowEmptyAt, hdesc, hdue]
    rfl
  rw [scanGo, if_neg hn]
  simp only [hemp, harch, Bool.false_eq_true, if_false, if_true]

/-- Witness for C7: a concrete archived row between concrete rows leaves the
scan state contribution untouched. -/
theorem c7_witness :
    scanGo testConfig 0 1 (some 2) 0
        ([Cell.str "task", Cell.date 0, Cell.boolean true] :: [fullTestRow]) ⟨[], [], 0⟩ =
      ((scanGo testConfig 0 1 (some 2) 0 [fullTestRow] ⟨[], [], 0⟩).1,
        [Cell.str "task", Cell.date 0, Cell.boolean true] ::
          (scanGo testConfig 0 1 (some 2) 0 [fullTestRow] ⟨[], [], 0⟩).2) :=
  c7_archived_row_skipped testConfig 0 1 (some 2) 0
    [Cell.str "task", Cell.date 0, Cell.boolean true] [fullTestRow] ⟨[], [], 0⟩
    (by decide) (by decide) (by decide) (by decide)

/-- Helper: every trigger created by the cross-product loop of
`setupSchedule` is registered for the `main` entry point. -/
lemma crossTriggers_handler (days : List String) (hours : List Int) :
    ∀ t ∈ days.flatMap (fun day => hours.map (fun hour => (⟨"main", day, hour⟩ : Trigger))),
      t.handlerFunction = "main" := by
  intro t ht
  simp only [List.mem_flatMap, List.mem_map] at ht
  obtain ⟨d, -, h, -, rfl⟩ := ht
  rfl

/-- Helper: deleting the `main` triggers twice is the same as once. -/
lemma deleteTriggers_idem (name : String) (ts : List Trigger) :
    deleteTriggers name (deleteTriggers name ts) = deleteTriggers name ts := by
  unfold deleteTriggers
  rw [List.filter_filter]
  simp [Bool.and_self]

/-- Helper: `deleteTriggers` wipes the freshly created cross product. -/
lemma deleteTriggers_cross (days : List String) (hours : List Int) :
    deleteTriggers "main"
        (days.flatMap (fun day => hours.map (fun hour => (⟨"main", day, hour⟩ : Trigger)))) = [] := by
  unfold deleteTriggers
  rw [List.filter_eq_nil_iff]
  intro t ht
  rw [crossTriggers_handler days hours t ht]
  simp

/-- C9: applying the schedule removes exactly the `main` registrations and
installs one per (day, hour) pair: unrelated registrations are untouched, the
`main` registrations of the result are exactly the cross product, a second
identical application changes nothing, and an empty day or hour list leaves
zero `main` registrations. -/
theorem c9_schedule_idempotent_replace :
    (∀ (days : List String) (hours : List Int) (ts : List Trigger),
      setupSchedule days hours (setupSchedule days hours ts) = setupSchedule days hours ts) ∧
    (∀ (days : List String) (hours : List Int) (ts : List Trigger),
      (setupSchedule days hours ts).filter (fun t => !(t.handlerFunction == "main")) =
        ts.filter (fun t => !(t.handlerFunction == "main"))) ∧
    (∀ (days : List String) (hours : List Int) (ts : List Trigger),
      (setupSchedule days hours ts).filter (fun t => t.handlerFunction == "main") =
        days.flatMap (fun day => hours.map (fun hour => ⟨"main", day, hour⟩))) ∧
    (∀ (hours : List Int) (ts : List Trigger),
      (setupSchedule [] hours ts).filter (fun t => t.handlerFunction == "main") = []) ∧
    (∀ (days : List String) (ts : List Trigger),
      (setupSchedule days [] ts).filter (fun t => t.handlerFunction == "main") = []) := by
  have hmainfilter : ∀ (days : List String) (hours : List Int),
      (days.flatMap (fun day => hours.map (fun hour => (⟨"main", day, hour⟩ : Trigger)))).filter
          (fun t => t.handlerFunction == "main") =
        days.flatMap (fun day => hours.map (fun hour => ⟨"main", day, hour⟩)) := by
    intro days hours
    rw [List.filter_eq_self]
    intro t ht
    rw [crossTriggers_handler days hours t ht]
    simp
  have hdelfilter : ∀ ts : List Trigger,
      (deleteTriggers "main" ts).filter (fun t => t.handlerFunction == "main") = [] := by
    intro ts
    unfold deleteTriggers
    rw [List.filter_filter, List.filter_eq_nil_iff]
    intro t _
    cases h : (t.handlerFunction == "main") <;> simp [h]
  have hcross : ∀ (days : List String) (hours : List Int) (ts : List Trigger),
      (setupSchedule days hours ts).filter (fun t => t.handlerFunction == "main") =
        days.flatMap (fun day => hours.map (fun hour => ⟨"main", day, hour⟩)) := by
    intro days hours ts
    unfold setupSchedule
    rw [List.filter_append, hmainfilter, hdelfilter]
    rfl
  refine ⟨?_, ?_, hcross, ?_, ?_⟩
  · intro days hours ts
    show deleteTriggers "main" (setupSchedule days hours ts) ++ _ = _
    unfold setupSchedule
    unfold deleteTriggers
    rw [List.filter_append]
    show (deleteTriggers "main" (deleteTriggers "main" ts)) ++
        deleteTriggers "main" (days.flatMap _) ++ _ = _
    rw [deleteTriggers_idem, deleteTriggers_cross, List.append_nil]
    rfl
  · intro days hours ts
    unfold setupSchedule
    rw [List.filter_append]
    have : (days.flatMap (fun day => hours.map (fun hour => (⟨"main", day, hour⟩ : Trigger)))).filter
        (fun t => !(t.handlerFunction == "main")) = [] := by
      rw [List.filter_eq_nil_iff]
      intro t ht
      rw [crossTriggers_handler days hours t ht]
      simp
    rw [this, List.append_nil]
    exact deleteTriggers_idem "main" ts
  · intro hours ts
    rw [hcross]
    rfl
  · intro days ts
    rw [hcross]
    simp

/-- C1 (amended per `c1_counterexample`): the scan's empty-row counter is
cumulative — it is never reset by a populated row — so the loop visits exactly
the rows for which the running total of empty rows seen so far is still below
4, regardless of whether the empty rows were consecutive. -/
theorem c1_scan_stops_after_four_total_empties (cfg : Config) (iItem iDueDate : Nat)
    (iArchived : Option Nat) (todayMs : Int) (rows : List Row) (s : ScanState) :
    (scanGo cfg iItem iDueDate iArchived todayMs rows s).2 =
      scannedRowsSpec iItem iDueDate s.nEmpty rows := by
  induction rows generalizing s with
  | nil => rfl
  | cons row rest ih =>
    rw [scanGo, scannedRowsSpec]
    by_cases hn : s.nEmpty = 4
    · rw [if_pos hn, if_pos hn]
    · rw [if_neg hn, if_neg hn]
      simp only []
      have key : ∀ s' : ScanState, s'.nEmpty = (if rowEmptyAt iItem iDueDate row
            then s.nEmpty + 1 else s.nEmpty) →
          (scanGo cfg iItem iDueDate iArchived todayMs rest s').2 =
            scannedRowsSpec iItem iDueDate
              (if rowEmptyAt iItem iDueDate row then s.nEmpty + 1 else s.nEmpty) rest := by
        intro s' h
        rw [ih s', h]
      by_cases he : rowEmptyAt iItem iDueDate row
      · simp only [he, if_true]
        rw [key _ (by simp [he])]
        simp [he]
      · simp only [he, if_false]
        by_cases ha : (getCell row iArchived).truthy
        · simp only [ha, if_true]
          rw [key _ (by simp [he])]
          simp [he]
        · simp only [ha, if_false]
          by_cases ho : MaintenanceItem.isOverdue cfg
              ⟨getCell row (some iItem), getCell row (some iDueDate), todayMs⟩
          · simp only [ho, if_true]
            rw [key _ (by simp [he])]
            simp [he]
          · simp only [ho, if_false]
            by_cases hd : MaintenanceItem.isDue cfg
                ⟨getCell row (some iItem), getCell row (some iDueDate), todayMs⟩
            · simp only [hd, if_true]
              rw [key _ (by simp [he])]
              simp [he]
            · simp only [hd, if_false]
              rw [key _ (by simp [he])]
              simp [he]

/-- Counterexample for C1 as stated: with four empty rows that are never
consecutive (each separated by a populated row), the scan nevertheless stops —
the eighth row, populated and non-empty, is never visited, even though no run
of four consecutive empty rows exists anywhere. -/
theorem c1_counterexample :
    hasFourConsecutiveEmpty 0 1 c1Rows = false ∧
    rowEmptyAt 0 1 fullTestRow = false ∧
    c1Rows.length = 8 ∧
    (scanGo testConfig 0 1 (some 2) 0 c1Rows ⟨[], [], 0⟩).2 = c1Rows.take 7 := by
  decide

/-- Helper: every item in the overdue bucket after a scan satisfies
`isOverdue`, provided every item already there did. -/
lemma scanGo_overdue_inv (cfg : Config) (iItem iDueDate : Nat)
    (iArchived : Option Nat) (todayMs : Int) :
    ∀ (rows : List Row) (s : ScanState),
      (∀ x ∈ s.overdueItems, x.isOverdue cfg = true) →
      ∀ x ∈ (scanGo cfg iItem iDueDate iArchived todayMs rows s).1.overdueItems,
        x.isOverdue cfg = true := by
  intro rows
  induction rows with
  | nil => intro s h; exact h
  | cons row rest ih =>
    intro s h x hx
    rw [scanGo] at hx
    by_cases hn : s.nEmpty = 4
    · rw [if_pos hn] at hx
      exact h x hx
    · rw [if_neg hn] at hx
      simp only [] at hx
      cases he : rowEmptyAt iItem iDueDate row with
      | true =>
        simp only [he, if_true] at hx
        exact ih { s with nEmpty := s.nEmpty + 1 } h x hx
      | false =>
        simp only [he, Bool.false_eq_true, if_false] at hx
        cases ha : (getCell row iArchived).truthy with
        | true =>
          simp only [ha, if_true] at hx
          exact ih s h x hx
        | false =>
          simp only [ha, Bool.false_eq_true, if_false] at hx
          cases ho : MaintenanceItem.isOverdue cfg
              ⟨getCell row (some iItem), getCell row (some iDueDate), todayMs⟩ with
          | true =>
            simp only [ho, if_true] at hx
            refine ih { s with overdueItems := s.overdueItems ++
              [⟨getCell row (some iItem), getCell row (some iDueDate), todayMs⟩] } ?_ x hx
            intro y hy
            rcases List.mem_append.mp hy with hy | hy
            · exact h y hy
            · rw [List.mem_singleton.mp hy]
              exact ho
          | false =>
            simp only [ho, Bool.false_eq_true, if_false] at hx
            cases hd : MaintenanceItem.isDue cfg
                ⟨getCell row (some iItem), getCell row (some iDueDate), todayMs⟩ with
            | true =>
              simp only [hd, if_true] at hx
              exact ih { s with dueItems := s.dueItems ++
                [⟨getCell row (some iItem), getCell row (some iDueDate), todayMs⟩] } h x hx
            | false =>
              simp only [hd, Bool.false_eq_true, if_false] at hx
              exact ih s h x hx

/-- Helper: every item in the due bucket after a scan fails `isOverdue`
(the due branch is only reached when the overdue check was false), provided
every item already there did. -/
lemma scanGo_due_inv (cfg : Config) (iItem iDueDate : Nat)
    (iArchived : Option Nat) (todayMs : Int) :
    ∀ (rows : List Row) (s : ScanState),
      (∀ x ∈ s.dueItems, x.isOverdue cfg = false) →
      ∀ x ∈ (scanGo cfg iItem iDueDate iArchived todayMs rows s).1.dueItems,
        x.isOverdue cfg = false := by
  intro rows
  induction rows with
  | nil => intro s h; exact h
  | cons row rest ih =>
    intro s h x hx
    rw [scanGo] at hx
    by_cases hn : s.nEmpty = 4
    · rw [if_pos hn] at hx
      exact h x hx
    · rw [if_neg hn] at hx
      simp only [] at hx
      cases he : rowEmptyAt iItem iDueDate row with
      | true =>
        simp only [he, if_true] at hx
        exact ih { s with nEmpty := s.nEmpty + 1 } h x hx
      | false =>
        simp only [he, Bool.false_eq_true, if_false] at hx
        cases ha : (getCell row iArchived).truthy with
        | true =>
          simp only [ha, if_true] at hx
          exact ih s h x hx
        | false =>
          simp only [ha, Bool.false_eq_true, if_false] at hx
          cases ho : MaintenanceItem.isOverdue cfg
              ⟨getCell row (some iItem), getCell row (some iDueDate), todayMs⟩ with
          | true =>
            simp only [ho, if_true] at hx
            exact ih { s with overdueItems := s.overdueItems ++
              [⟨getCell row (some iItem), getCell row (some iDueDate), todayMs⟩] } h x hx
          | false =>
            simp only [ho, Bool.false_eq_true, if_false] at hx
            cases hd : MaintenanceItem.isDue cfg
                ⟨getCell row (some iItem), getCell row (some iDueDate), todayMs⟩ with
            | true =>
              simp only [hd, if_true] at hx
              refine ih { s with dueItems := s.dueItems ++
                [⟨getCell row (some iItem), getCell row (some iDueDate), todayMs⟩] } ?_ x hx
              intro y hy
              rcases List.mem_append.mp hy with hy | hy
              · exact h y hy
              · rw [List.mem_singleton.mp hy]
                exact ho
            | false =>
              simp only [hd, Bool.false_eq_true, if_false] at hx
              exact ih s h x hx

/-- C5: whenever the configured thresholds satisfy
`-daysOverdueThreshold ≤ daysDueThreshold` (true for the defaults 14 and 7),
`isOverdue()` implies `isDue()`; and for every scan from the empty initial
state the due bucket and the overdue bucket are disjoint, because the overdue
check is made first. -/
theorem c5_overdue_subset_and_disjoint :
    (∀ (cfg : Config) (item : MaintenanceItem),
      -1 * cfg.daysOverdueThreshold ≤ cfg.daysDueThreshold →
      item.isOverdue cfg = true → item.isDue cfg = true) ∧
    (∀ (cfg : Config) (iItem iDueDate : Nat) (iArchived : Option Nat)
        (todayMs : Int) (rows : List Row) (x : MaintenanceItem),
      x ∈ (scanGo cfg iItem iDueDate iArchived todayMs rows ⟨[], [], 0⟩).1.dueItems →
      x ∉ (scanGo cfg iItem iDueDate iArchived todayMs rows ⟨[], [], 0⟩).1.overdueItems) := by
  constructor
  · intro cfg item hth hov
    unfold MaintenanceItem.isOverdue at hov
    unfold MaintenanceItem.isDue
    cases hd : item.daysTilDue with
    | none =>
      rw [hd] at hov
      cases hov
    | some d =>
      rw [hd] at hov
      simp only [decide_eq_true_eq] at hov ⊢
      omega
  · intro cfg iItem iDueDate iArchived todayMs rows x hdue hov
    have h1 := scanGo_due_inv cfg iItem iDueDate iArchived todayMs rows
      ⟨[], [], 0⟩ (by intro y hy; simp at hy) x hdue
    have h2 := scanGo_overdue_inv cfg iItem iDueDate iArchived todayMs rows
      ⟨[], [], 0⟩ (by intro y hy; simp at hy) x hov
    rw [h1] at h2
    cases h2

/-- Witness for C5: under the default thresholds a 20-days-overdue item is
both overdue and due, and a concrete scan's due item is absent from the
overdue bucket. -/
theorem c5_witness :
    (-1 * testConfig.daysOverdueThreshold ≤ testConfig.daysDueThreshold) ∧
    MaintenanceItem.isOverdue testConfig ⟨Cell.str "w", Cell.date (-1728000000), 0⟩ = true ∧
    MaintenanceItem.isDue testConfig ⟨Cell.str "w", Cell.date (-1728000000), 0⟩ = true ∧
    ((⟨Cell.str "task", Cell.date 0, 0⟩ : MaintenanceItem) ∈
        (scanGo testConfig 0 1 (some 2) 0 [[Cell.str "task", Cell.date 0, Cell.str ""]]
          ⟨[], [], 0⟩).1.dueItems ∧
      (⟨Cell.str "task", Cell.date 0, 0⟩ : MaintenanceItem) ∉
        (scanGo testConfig 0 1 (some 2) 0 [[Cell.str "task", Cell.date 0, Cell.str ""]]
          ⟨[], [], 0⟩).1.overdueItems) :=
  ⟨by decide, by decide,
    c5_overdue_subset_and_disjoint.1 testConfig
      ⟨Cell.str "w", Cell.date (-1728000000), 0⟩ (by decide) (by decide),
    by decide,
    c5_overdue_subset_and_disjoint.2 testConfig 0 1 (some 2) 0
      [[Cell.str "task", Cell.date 0, Cell.str ""]]
      ⟨Cell.str "task", Cell.date 0, 0⟩ (by decide)⟩

/-- Helper: a metacharacter-free label compiles to literal tokens only. -/
lemma compilePattern_noMeta (label : String) (h : noRegexMeta label = true) :
    compilePattern label = label.toList.map RTok.lit := by
  unfold compilePattern
  refine List.map_congr_left ?_
  intro c hc
  unfold noRegexMeta at h
  have hmem := List.all_eq_true.mp h c hc
  have hne : ¬(c = '.') := by
    intro hcdot
    rw [hcdot] at hmem
    simp [regexMetaChars] at hmem
  simp [hne]

/-- Helper: anchored matching of a literal-token pattern is exactly the
case-insensitive prefix test. -/
lemma matchesAt_lit (p : List Char) :
    ∀ t : List Char,
      matchesAt (p.map RTok.lit) t =
        startsChars (p.map Char.toLower) (t.map Char.toLower) := by
  induction p with
  | nil => intro t; rfl
  | cons a p ih =>
    intro t
    cases t with
    | nil => rfl
    | cons c t' =>
      simp only [List.map_cons, matchesAt, startsChars, matchTok]
      rw [ih t']

/-- Helper: unanchored search of a literal-token pattern is exactly the
case-insensitive substring test. -/
lemma regexSearch_lit (p : List Char) :
    ∀ t : List Char,
      regexSearch (p.map RTok.lit) t =
        hasSubChars (p.map Char.toLower) (t.map Char.toLower) := by
  intro t
  induction t with
  | nil =>
    show matchesAt (p.map RTok.lit) [] = startsChars (p.map Char.toLower) []
    simpa using matchesAt_lit p []
  | cons c t' ih =>
    simp only [regexSearch, hasSubChars, List.map_cons]
    rw [← ih, matchesAt_lit p (c :: t'), List.map_cons]

/-- Helper: for a metacharacter-free label, the source's regex test coincides
with the claim's case-insensitive literal-substring test. -/
lemma regexTest_noMeta (label s : String) (h : noRegexMeta label = true) :
    regexTest label s = containsCI s label := by
  unfold regexTest containsCI
  rw [compilePattern_noMeta label h, regexSearch_lit]

/-- C3 (amended per `c3_counterexample`): for every label free of regex
metacharacters, `findColumn` returns the index of the first header cell whose
string form contains the label as a literal substring, case-insensitively
(first match wins); in particular header `["Next Due Date"]` with label
`"due"` yields index 0.  For labels containing metacharacters the label acts
as a regex pattern, not a literal substring. -/
theorem c3_findColumn_substring :
    (∀ (rowData : List Cell) (label : String), noRegexMeta label = true →
      findColumn rowData label =
        rowData.findIdx? (fun cell => containsCI cell.jsString label)) ∧
    findColumn [Cell.str "Next Due Date"] "due" = some 0 := by
  constructor
  · intro rowData label h
    unfold findColumn
    have hfun : (fun item : Cell => regexTest label item.jsString) =
        (fun cell : Cell => containsCI cell.jsString label) :=
      funext (fun cell => regexTest_noMeta label cell.jsString h)
    rw [hfun]
  · decide

/-- Witness for C3: applying the amended statement to a concrete
metacharacter-free label and two-cell header, where the second cell is the
case-insensitive substring match. -/
theorem c3_witness :
    noRegexMeta "due" = true ∧
    findColumn [Cell.str "Frequency", Cell.str "Next Due Date"] "due" =
      [Cell.str "Frequency", Cell.str "Next Due Date"].findIdx?
        (fun cell => containsCI cell.jsString "due") :=
  ⟨by decide,
    c3_findColumn_substring.1 [Cell.str "Frequency", Cell.str "Next Due Date"]
      "due" (by decide)⟩

/-- Counterexample for C3 as stated: with label `"."` the cell `"ab"` is
matched (the label is treated as a regex pattern, where `.` matches any
character), yet `"."` does not occur in `"ab"` as a literal substring. -/
theorem c3_counterexample :
    findColumn [Cell.str "ab"] "." = some 0 ∧ containsCI "ab" "." = false := by
  decide
